import Mathlib

/-! Shallow embedding of the resolution-and-ranking engine of fast-github-hosts.
The primary source is `generate_github_hosts_ultimate.py`; the functions of
`generate_github_hosts_pro.py` cited alongside it are near-identical variants
of the same code.  Network and file-system effects are made explicit: the
outcome of each resolution channel and of each TCP probe enters as a
parameter, and the persisted cache file is threaded through as a value.
Python floats are modeled as rationals, with `float('inf')` kept as the
explicit constructor `Latency.inf`.
-/

namespace GithubHosts

/-- Configuration constant `TCP_TEST_COUNT = 3` (ultimate line 145). -/
def TCP_TEST_COUNT : Nat := 3

/-- Configuration constant `TOP_IP_COUNT = 3` (ultimate line 149). -/
def TOP_IP_COUNT : Nat := 3

/-- Configuration constant `CACHE_ENABLED = True` (ultimate line 153).
Cache operations take the flag as a parameter so that the disabled
configuration can be reasoned about. -/
def CACHE_ENABLED : Bool := true

/-- A latency value in milliseconds: a finite float, modeled as a rational,
or `float('inf')`, the unreachable sentinel that `test_tcp_speed` returns on
any connection failure. -/
inductive Latency where
  | ms : ℚ → Latency
  | inf : Latency
deriving DecidableEq, Repr

/-- Python's `<=` comparison on latency floats: `inf` is greater than or
equal to every value, and `inf <= x` fails for finite `x`. -/
def Latency.le : Latency → Latency → Prop
  | .ms a, .ms b => a ≤ b
  | .ms _, .inf => True
  | .inf, .inf => True
  | .inf, .ms _ => False

instance Latency.decLe : (a b : Latency) → Decidable (Latency.le a b)
  | .ms a, .ms b => inferInstanceAs (Decidable (a ≤ b))
  | .ms _, .inf => .isTrue trivial
  | .inf, .inf => .isTrue trivial
  | .inf, .ms _ => .isFalse id

/-- The comparison performed by `sorted(results.items(), key=lambda x: x[1])`
(ultimate line 409): pairs are compared by their latency component only. -/
def pairLe (a b : String × Latency) : Prop := Latency.le a.2 b.2

instance pairLe.dec : DecidableRel pairLe := fun a b => Latency.decLe a.2 b.2

instance pairLe.total : IsTotal (String × Latency) pairLe :=
  ⟨fun a b => by
    unfold pairLe
    cases a.2 <;> cases b.2 <;> first
      | exact Or.inl trivial
      | exact Or.inr trivial
      | exact le_total _ _⟩

instance pairLe.trans : IsTrans (String × Latency) pairLe :=
  ⟨fun a b c hab hbc => by
    obtain ⟨_, a2⟩ := a
    obtain ⟨_, b2⟩ := b
    obtain ⟨_, c2⟩ := c
    unfold pairLe at *
    dsimp only at *
    cases a2 <;> cases b2 <;> cases c2 <;> first
      | trivial
      | exact hab.elim
      | exact hbc.elim
      | exact le_trans hab hbc⟩

/-- The successful trial samples: `[r for r in results if r != float('inf')]`
(ultimate line 319). -/
def successes (samples : List Latency) : List ℚ :=
  samples.filterMap fun s => match s with | .ms q => some q | .inf => none

/-- Function `test_tcp_latency` (ultimate lines 316-326 and pro lines 424-454): run
the trials, drop the failed ones, and return the median of the successes,
with `inf` when every trial failed.  The trial outcomes enter as the
`samples` list; Python's stable in-place `results.sort()` is modeled by
`List.insertionSort`. -/
def test_tcp_latency (samples : List Latency) : Latency :=
  let results := successes samples
  if results = [] then .inf
  else
    let r := List.insertionSort (· ≤ ·) results
    let mid := r.length / 2
    if r.length % 2 = 0 then .ms ((r.getD (mid - 1) 0 + r.getD mid 0) / 2)
    else .ms (r.getD mid 0)

/-- One persisted record of the cache file (ultimate lines 355-362).
`last_success` stores the wall-clock stamp `datetime.now().isoformat()`,
modeled as an abstract rational clock value supplied to `update_cache`. -/
structure CacheEntry where
  count : Nat
  avg_latency : ℚ
  last_success : Option ℚ
deriving DecidableEq, Repr

/-- The JSON object of the cache file: string keys `"domain:ip"` mapped to
entries, in insertion order, as a Python dict. -/
abbrev Cache := List (String × CacheEntry)

/-- The persisted cache file: `none` when absent (an unreadable file, which
`load_cache` also treats as empty, is modeled the same way), `some c` when
it holds the JSON object `c`. -/
abbrev Store := Option Cache

/-- Python dict lookup `cache[key]` (and the membership test `key in cache`). -/
def lookupEntry (key : String) : Cache → Option CacheEntry
  | [] => none
  | (k, e) :: rest => if k = key then some e else lookupEntry key rest

/-- Python dict assignment `cache[key] = e`: replace the binding in place
when present, append in insertion order when absent. -/
def setEntry (key : String) (e : CacheEntry) : Cache → Cache
  | [] => [(key, e)]
  | (k, e') :: rest =>
    if k = key then (k, e) :: rest else (k, e') :: setEntry key e rest

/-- Function `load_cache` (ultimate lines 330-338): the empty mapping when the cache
is disabled or the file is absent or unreadable, the parsed object otherwise. -/
def load_cache (enabled : Bool) (store : Store) : Cache :=
  if enabled then store.getD [] else []

/-- Function `save_cache` (ultimate lines 340-348): a no-op when the cache is
disabled, otherwise the whole mapping is written back. -/
def save_cache (enabled : Bool) (store : Store) (cache : Cache) : Store :=
  if enabled then some cache else store

/-- The cache key `f"{domain}:{ip}"` (ultimate line 355). -/
def cacheKey (domain ip : String) : String := domain ++ ":" ++ ip

/-- Function `update_cache` (ultimate lines 350-363 and pro lines 483-505): reload the
store, initialize an absent entry to count 0 and average 0, set the average
to `(old_avg * count + latency) / (count + 1)`, increment the count, stamp
the last-success time, and persist the whole store.  The source inserts the
default entry first and then mutates it; reading the old entry with the same
default is the identical dict state. -/
def update_cache (enabled : Bool) (store : Store) (domain ip : String)
    (latency now : ℚ) : Store :=
  if enabled then
    let cache := load_cache enabled store
    let key := cacheKey domain ip
    let old := (lookupEntry key cache).getD ⟨0, 0, none⟩
    let entry : CacheEntry :=
      ⟨old.count + 1, (old.avg_latency * old.count + latency) / (old.count + 1),
        some now⟩
    save_cache enabled store (setEntry key entry cache)
  else store

/-- Python `key.startswith(pre)`, on the character lists of the strings. -/
def strStartsWith (key pre : String) : Bool := pre.data.isPrefixOf key.data

/-- Python `key.split(':', 1)[1]`: everything after the first colon.  Every
key written by `update_cache` contains a colon; on a colon-free key the
source would raise `IndexError`, modeled as the empty string. -/
def afterFirstColon (key : String) : String :=
  ⟨(key.data.dropWhile (fun c => c ≠ ':')).drop 1⟩

/-- Function `get_cached_ips` (ultimate lines 365-373): every address previously
recorded for the domain, paired with its historical average latency. -/
def get_cached_ips (domain : String) (cache : Cache) : List (String × ℚ) :=
  cache.filterMap fun ke =>
    if strStartsWith ke.1 (domain ++ ":") then
      some (afterFirstColon ke.1, ke.2.avg_latency)
    else none

/-- The outcome of one resolution-channel call: `.error` models a raised
exception, swallowed by the bare `except` of `get_all_ips`, and `.ok` the
returned address list. -/
abbrev ChannelResult := Except Unit (List String)

/-- The addresses a channel contributed: none when it raised. -/
def channelIps : ChannelResult → List String
  | .ok ips => ips
  | .error _ => []

/-- Function `get_all_ips` (ultimate lines 271-302 and pro lines 366-397): the
three-layer fallback DoH → traditional DNS → web scrape, short-circuiting on
the first layer that yields a non-empty list; an exception from a layer is
swallowed and falls through; all layers failing yields `[]`.  The three
channel outcomes enter as parameters; the pro variant has no scrape layer,
which coincides with `use_web = false`. -/
def get_all_ips (dohR tradR webR : ChannelResult) (use_doh use_web : Bool) :
    List String :=
  let l1 := if use_doh then channelIps dohR else []
  if l1 ≠ [] then l1
  else
    let l2 := channelIps tradR
    if l2 ≠ [] then l2
    else
      let l3 := if use_web then channelIps webR else []
      if l3 ≠ [] then l3 else []

/-- The ranked result for one hostname: `(address, latency)` pairs. -/
abbrev RankedResult := List (String × Latency)

/-- Python `list(set(l))`: CPython's set iteration order is unspecified, so
it is modeled deterministically as first-occurrence order. -/
def dedupKeepFirst (l : List String) : List String :=
  l.foldl (fun acc x => if x ∈ acc then acc else acc ++ [x]) []

/-- The candidate-gathering step of `get_fastest_ips` (ultimate lines
382-385): the resolved addresses, unioned with the cached ones when caching
is requested. -/
def gatherCandidates (useCache : Bool) (resolved : List String)
    (cached : List (String × ℚ)) : List String :=
  if useCache then dedupKeepFirst (resolved ++ cached.map Prod.fst)
  else resolved

/-- The concurrent probing loop of `get_fastest_ips` (ultimate lines
394-406): every candidate is probed — `test_tcp_latency` over the network
enters here as the `probe` function — and every finite estimate is written
through to the cache.  The `results` dict is keyed in future-completion
order; it is modeled in submission (candidate) order, one admissible
schedule.  The `except` branch that records `inf` for a crashed future is
subsumed by `probe` returning `inf`. -/
def probeAll (enabled : Bool) (domain : String) (probe : String → Latency)
    (now : ℚ) : List String → Store → RankedResult × Store
  | [], store => ([], store)
  | ip :: rest, store =>
    let lat := probe ip
    let store' := match lat with
      | .ms q => update_cache enabled store domain ip q now
      | .inf => store
    let rs := probeAll enabled domain probe now rest store'
    ((ip, lat) :: rs.1, rs.2)

/-- The candidate pool of `get_fastest_ips` for one hostname: the addresses
from live resolution, widened by the cached ones when caching is requested
(ultimate lines 382-385). -/
def candidatesOf (enabled : Bool) (store : Store) (domain : String)
    (resolved : List String) (useCache : Bool) : List String :=
  gatherCandidates useCache resolved
    (if useCache then get_cached_ips domain (load_cache enabled store) else [])

/-- Function `get_fastest_ips` (ultimate lines 377-419 and pro lines 524-589):
gather candidates, return `[]` at once when there are none, probe them all,
sort by latency with Python's stable `sorted(..., key=lambda x: x[1])`
(modeled by `List.insertionSort pairLe`), keep the reachable pairs, and
return the first `TOP_IP_COUNT` of them — or, when none is reachable, the
single pair of the first candidate with `inf`.  `resolved` is the value
`get_all_ips` returned for the domain. -/
def get_fastest_ips (enabled : Bool) (store : Store) (domain : String)
    (resolved : List String) (useCache : Bool) (probe : String → Latency)
    (now : ℚ) : RankedResult × Store :=
  let ips := candidatesOf enabled store domain resolved useCache
  if ips = [] then ([], store)
  else
    let rs := probeAll enabled domain probe now ips store
    let sortedResults := List.insertionSort pairLe rs.1
    let valid := sortedResults.filter fun p => p.2 ≠ Latency.inf
    if valid = [] then
      match ips with
      | i :: _ => ([(i, Latency.inf)], rs.2)
      | [] => ([], rs.2)
    else (valid.take TOP_IP_COUNT, rs.2)

/-- One entry line of the rendered hosts artifact.  The textual rendering —
`f"{ip:<20} {domain:<50} {latency_str}"` with `# <latency>.1f ms` or
`# timeout` — is a float-formatting concern abstracted into the structured
fields; which lines appear and in what order is modeled exactly. -/
structure HostsLine where
  ip : String
  domain : String
  latency : Latency
deriving DecidableEq, Repr

/-- Python dict lookup `results[domain]` (and `domain in results`). -/
def lookupResult (domain : String) :
    List (String × RankedResult) → Option RankedResult
  | [] => none
  | (d, r) :: rest => if d = domain then some r else lookupResult domain rest

/-- The entry lines rendered for one catalogue domain (ultimate lines
446-456): nothing when `domain not in results`; one line per ranked pair in
multi-IP mode; one line from `ip_list[0]` otherwise.  On an empty ranked
list the source's `ip_list[0]` would raise, but `generate_hosts_file` never
stores an empty list (see `buildResults`); the branch is modeled as `[]`. -/
def hostsLinesFor (results : List (String × RankedResult)) (multiIp : Bool)
    (domain : String) : List HostsLine :=
  match lookupResult domain results with
  | none => []
  | some ipList =>
    if multiIp then ipList.map fun p => ⟨p.1, domain, p.2⟩
    else
      match ipList with
      | [] => []
      | p :: _ => [⟨p.1, domain, p.2⟩]

/-- The entry lines of the artifact over a catalogue `domains`, in catalogue
order (the `for domain in domains` loop of ultimate lines 446-456). -/
def hostsEntriesOn (domains : List String)
    (results : List (String × RankedResult)) (multiIp : Bool) :
    List HostsLine :=
  domains.flatMap (hostsLinesFor results multiIp)

/-- The per-domain results mapping collected by `generate_hosts_file`
(ultimate lines 478-491): only a non-empty ranked result is stored
(`if ip_list: results[domain] = ip_list`). -/
def buildResults (runs : List (String × RankedResult)) :
    List (String × RankedResult) :=
  runs.filter fun p => p.2 ≠ []

/-- Constant `DOMAIN_LEVELS['core']` (ultimate lines 46-58). -/
def DOMAIN_LEVELS_core : List String :=
  ["github.com", "api.github.com", "gist.github.com", "codeload.github.com",
   "github.blog", "github.community", "github.dev", "alive.github.com",
   "live.github.com", "education.github.com",
   "github.githubassets.com", "github.io", "github.map.fastly.net",
   "github.global.ssl.fastly.net", "githubstatus.com",
   "raw.githubusercontent.com", "objects.githubusercontent.com",
   "avatars.githubusercontent.com", "camo.githubusercontent.com",
   "user-images.githubusercontent.com"]

/-- Constant `DOMAIN_LEVELS['extended']` (ultimate lines 59-87). -/
def DOMAIN_LEVELS_extended : List String :=
  ["raw.github.com", "objects-origin.githubusercontent.com",
   "release-assets.githubusercontent.com",
   "github-releases.githubusercontent.com",
   "github-registry-files.githubusercontent.com",
   "avatars0.githubusercontent.com", "avatars1.githubusercontent.com",
   "avatars2.githubusercontent.com", "avatars3.githubusercontent.com",
   "avatars4.githubusercontent.com", "avatars5.githubusercontent.com",
   "private-user-images.githubusercontent.com",
   "cloud.githubusercontent.com", "desktop.githubusercontent.com",
   "favicons.githubusercontent.com", "media.githubusercontent.com",
   "pkg-containers.githubusercontent.com",
   "ghcr.io", "maven.pkg.github.com", "npm.pkg.github.com",
   "npm-proxy.pkg.github.com", "npm-beta.pkg.github.com",
   "npm-beta-proxy.pkg.github.com", "nuget.pkg.github.com",
   "rubygems.pkg.github.com", "pypi.pkg.github.com",
   "swift.pkg.github.com", "docker.pkg.github.com",
   "docker-proxy.pkg.github.com", "containers.pkg.github.com",
   "github-cloud.s3.amazonaws.com", "github-com.s3.amazonaws.com",
   "github-production-release-asset-2e65be.s3.amazonaws.com",
   "github-production-user-asset-6210df.s3.amazonaws.com",
   "github-production-repository-file-5c1aeb.s3.amazonaws.com",
   "githubcopilot.com", "api.githubcopilot.com",
   "api.individual.githubcopilot.com",
   "copilot-proxy.githubusercontent.com",
   "copilot-telemetry.githubusercontent.com", "default.exp-tas.com",
   "collector.github.com", "central.github.com"]

/-- Constant `DOMAIN_LEVELS['optional']` (ultimate lines 88-131). -/
def DOMAIN_LEVELS_optional : List String :=
  ["pipelines.actions.githubusercontent.com",
   "vstoken.actions.githubusercontent.com",
   "broker.actions.githubusercontent.com",
   "launch.actions.githubusercontent.com",
   "runner-auth.actions.githubusercontent.com",
   "tokenghub.actions.githubusercontent.com",
   "setup-tools.actions.githubusercontent.com",
   "pkg.actions.githubusercontent.com",
   "results-receiver.actions.githubusercontent.com",
   "mpsghub.actions.githubusercontent.com",
   "pipelinesghubeus1.actions.githubusercontent.com",
   "pipelinesghubeus2.actions.githubusercontent.com",
   "pipelinesghubeus3.actions.githubusercontent.com",
   "pipelinesghubeus4.actions.githubusercontent.com",
   "pipelinesghubeus5.actions.githubusercontent.com",
   "pipelinesghubeus6.actions.githubusercontent.com",
   "pipelinesghubeus7.actions.githubusercontent.com",
   "pipelinesghubeus8.actions.githubusercontent.com",
   "pipelinesghubeus9.actions.githubusercontent.com",
   "pipelinesghubeus10.actions.githubusercontent.com",
   "pipelinesghubeus11.actions.githubusercontent.com",
   "pipelinesghubeus12.actions.githubusercontent.com",
   "pipelinesghubeus13.actions.githubusercontent.com",
   "pipelinesghubeus14.actions.githubusercontent.com",
   "pipelinesghubeus15.actions.githubusercontent.com",
   "pipelinesghubeus20.actions.githubusercontent.com",
   "pipelinesghubeus21.actions.githubusercontent.com",
   "pipelinesghubeus22.actions.githubusercontent.com",
   "pipelinesghubeus23.actions.githubusercontent.com",
   "pipelinesghubeus24.actions.githubusercontent.com",
   "pipelinesghubeus25.actions.githubusercontent.com",
   "pipelinesghubeus26.actions.githubusercontent.com",
   "pipelinesproxcnc1.actions.githubusercontent.com",
   "pipelinesproxcus1.actions.githubusercontent.com",
   "pipelinesproxeau1.actions.githubusercontent.com",
   "pipelinesproxsdc1.actions.githubusercontent.com",
   "pipelinesproxweu1.actions.githubusercontent.com",
   "pipelinesproxwus31.actions.githubusercontent.com",
   "runnerghubeus1.actions.githubusercontent.com",
   "runnerghubeus20.actions.githubusercontent.com",
   "runnerghubeus21.actions.githubusercontent.com",
   "runnerghubwus31.actions.githubusercontent.com",
   "runnerproxcnc1.actions.githubusercontent.com",
   "runnerproxcus1.actions.githubusercontent.com",
   "runnerproxeau1.actions.githubusercontent.com",
   "runnerproxsdc1.actions.githubusercontent.com",
   "runnerproxweu1.actions.githubusercontent.com",
   "run-actions-1-azure-eastus.actions.githubusercontent.com",
   "run-actions-2-azure-eastus.actions.githubusercontent.com",
   "run-actions-3-azure-eastus.actions.githubusercontent.com",
   "productionresultssa0.blob.core.windows.net",
   "productionresultssa1.blob.core.windows.net",
   "productionresultssa2.blob.core.windows.net",
   "productionresultssa3.blob.core.windows.net",
   "productionresultssa4.blob.core.windows.net",
   "productionresultssa5.blob.core.windows.net",
   "productionresultssa6.blob.core.windows.net",
   "productionresultssa7.blob.core.windows.net",
   "productionresultssa8.blob.core.windows.net",
   "productionresultssa9.blob.core.windows.net",
   "productionresultssa10.blob.core.windows.net",
   "productionresultssa11.blob.core.windows.net",
   "productionresultssa12.blob.core.windows.net",
   "productionresultssa13.blob.core.windows.net",
   "productionresultssa14.blob.core.windows.net",
   "productionresultssa15.blob.core.windows.net",
   "productionresultssa16.blob.core.windows.net",
   "productionresultssa17.blob.core.windows.net",
   "productionresultssa18.blob.core.windows.net",
   "productionresultssa19.blob.core.windows.net",
   "mavenregistryv2prod.blob.core.windows.net",
   "npmregistryv2prod.blob.core.windows.net",
   "nugetregistryv2prod.blob.core.windows.net",
   "rubygemsregistryv2prod.blob.core.windows.net",
   "tuf-repo.github.com", "fulcio.githubapp.com",
   "timestamp.githubapp.com", "vscode.dev"]

/-- Function `get_domain_list` (ultimate lines 423-430): the catalogue for a level. -/
def get_domain_list (level : String) : List String :=
  if level = "core" then DOMAIN_LEVELS_core
  else if level = "extended" then DOMAIN_LEVELS_core ++ DOMAIN_LEVELS_extended
  else DOMAIN_LEVELS_core ++ DOMAIN_LEVELS_extended ++ DOMAIN_LEVELS_optional

/-- The entry lines of `generate_hosts_content` (ultimate lines 432-459).
The constant header and footer comment lines carry no per-hostname data and
are omitted from the model. -/
def generate_hosts_content (results : List (String × RankedResult))
    (level : String) (multiIp : Bool) : List HostsLine :=
  hostsEntriesOn (get_domain_list level) results multiIp

/-- Applying `update_cache` `k` times in a row with the same arguments. -/
def iterateUpdate (enabled : Bool) (domain ip : String) (latency now : ℚ) :
    Nat → Store → Store
  | 0, store => store
  | k + 1, store =>
    update_cache enabled (iterateUpdate enabled domain ip latency now k store)
      domain ip latency now

theorem Latency.leRefl (a : Latency) : Latency.le a a := by
  cases a with
  | ms q => exact le_rfl
  | inf => trivial

/-- The pair list of the probing loop: every candidate paired with its
probe outcome, in order. -/
theorem probeAll_fst (enabled : Bool) (domain : String)
    (probe : String → Latency) (now : ℚ) (l : List String) (store : Store) :
    (probeAll enabled domain probe now l store).1 =
      l.map fun ip => (ip, probe ip) := by
  induction l generalizing store with
  | nil => rfl
  | cons ip rest ih => simp [probeAll, ih]

theorem lookupEntry_setEntry_self (key : String) (e : CacheEntry)
    (c : Cache) : lookupEntry key (setEntry key e c) = some e := by
  induction c with
  | nil => simp [setEntry, lookupEntry]
  | cons ke rest ih =>
    by_cases h : ke.1 = key
    · simp [setEntry, lookupEntry, h]
    · simp [setEntry, lookupEntry, h, ih]

theorem lookupEntry_setEntry_ne (key k' : String) (e : CacheEntry)
    (c : Cache) (h : k' ≠ key) :
    lookupEntry k' (setEntry key e c) = lookupEntry k' c := by
  have h' : ¬ key = k' := fun hc => h hc.symm
  induction c with
  | nil => simp [setEntry, lookupEntry, h']
  | cons ke rest ih =>
    by_cases hk : ke.1 = key
    · simp [setEntry, lookupEntry, hk, h']
    · by_cases hk' : ke.1 = k'
      · simp [setEntry, lookupEntry, hk, hk', h]
      · simp [setEntry, lookupEntry, hk, hk', ih]

theorem get_fastest_ips_of_no_candidates (enabled : Bool) (store : Store)
    (domain : String) (resolved : List String) (useCache : Bool)
    (probe : String → Latency) (now : ℚ)
    (h : candidatesOf enabled store domain resolved useCache = []) :
    get_fastest_ips enabled store domain resolved useCache probe now =
      ([], store) := by
  rw [get_fastest_ips]
  simp [h]

theorem get_fastest_ips_fst_of_valid_ne (enabled : Bool) (store : Store)
    (domain : String) (resolved : List String) (useCache : Bool)
    (probe : String → Latency) (now : ℚ)
    (hvalid :
      (List.insertionSort pairLe
        ((candidatesOf enabled store domain resolved useCache).map
          fun ip => (ip, probe ip))).filter (fun p => p.2 ≠ Latency.inf) ≠ []) :
    (get_fastest_ips enabled store domain resolved useCache probe now).1 =
      ((List.insertionSort pairLe
        ((candidatesOf enabled store domain resolved useCache).map
          fun ip => (ip, probe ip))).filter
            (fun p => p.2 ≠ Latency.inf)).take TOP_IP_COUNT := by
  have hips : candidatesOf enabled store domain resolved useCache ≠ [] := by
    intro h
    exact hvalid (by simp [h])
  rw [get_fastest_ips]
  simp only [probeAll_fst, if_neg hips, if_neg hvalid]

theorem get_fastest_ips_fst_of_valid_nil (enabled : Bool) (store : Store)
    (domain : String) (resolved : List String) (useCache : Bool)
    (probe : String → Latency) (now : ℚ) (i : String) (t : List String)
    (hips : candidatesOf enabled store domain resolved useCache = i :: t)
    (hvalid :
      (List.insertionSort pairLe
        ((candidatesOf enabled store domain resolved useCache).map
          fun ip => (ip, probe ip))).filter (fun p => p.2 ≠ Latency.inf) = []) :
    (get_fastest_ips enabled store domain resolved useCache probe now).1 =
      [(i, Latency.inf)] := by
  rw [get_fastest_ips]
  rw [hips] at hvalid ⊢
  simp only [probeAll_fst]
  rw [if_neg (List.cons_ne_nil i t), if_pos hvalid]

/-- The ranked pairs that survive the reachability filter form a sorted
sublist of the sorted probe results. -/
theorem sorted_valid (l : List (String × Latency)) (p : String × Latency → Bool) :
    List.Sorted pairLe ((List.insertionSort pairLe l).filter p) :=
  List.Pairwise.sublist (List.filter_sublist _)
    (List.sorted_insertionSort pairLe l)

/-- C1: for every hostname whose candidate pool contains at least one address
with a reachable (finite) latency estimate, the ranking operation
`get_fastest_ips` returns a list sorted ascending by latency estimate, of
length at most `TOP_IP_COUNT` (which defaults to 3), containing no
unreachable entries. -/
theorem C1_ranked_result_sorted_bounded_reachable (enabled : Bool)
    (store : Store) (domain : String) (resolved : List String)
    (useCache : Bool) (probe : String → Latency) (now : ℚ)
    (h : ∃ ip ∈ candidatesOf enabled store domain resolved useCache,
      probe ip ≠ Latency.inf) :
    List.Sorted pairLe
        (get_fastest_ips enabled store domain resolved useCache probe now).1 ∧
      (get_fastest_ips enabled store domain resolved useCache probe now).1.length ≤
        TOP_IP_COUNT ∧
      ∀ p ∈ (get_fastest_ips enabled store domain resolved useCache probe now).1,
        p.2 ≠ Latency.inf := by
  obtain ⟨ip, hip, hfin⟩ := h
  have hmem : (ip, probe ip) ∈
      List.insertionSort pairLe
        ((candidatesOf enabled store domain resolved useCache).map
          fun i => (i, probe i)) :=
    (List.perm_insertionSort pairLe _).mem_iff.mpr
      (List.mem_map_of_mem _ hip)
  have hmemv : (ip, probe ip) ∈
      (List.insertionSort pairLe
        ((candidatesOf enabled store domain resolved useCache).map
          fun i => (i, probe i))).filter (fun p => p.2 ≠ Latency.inf) :=
    List.mem_filter.mpr ⟨hmem, by simpa using hfin⟩
  have hvne := List.ne_nil_of_mem hmemv
  rw [get_fastest_ips_fst_of_valid_ne enabled store domain resolved useCache
    probe now hvne]
  refine ⟨?_, ?_, ?_⟩
  · exact List.Pairwise.sublist (List.take_sublist _ _) (sorted_valid _ _)
  · exact List.length_take_le _ _
  · intro p hp
    have := List.of_mem_filter (List.mem_of_mem_take hp)
    simpa using this

/-- Witness for C1 at the spec's concrete scenario: two resolved addresses
measured at 12ms and 45ms. -/
theorem C1_witness :
    (∃ ip ∈ candidatesOf true none ("example.test") ["1.2.3.4", "1.2.3.5"]
        false,
      (fun i => if i = "1.2.3.4" then Latency.ms 12 else Latency.ms 45) ip ≠
        Latency.inf) ∧
      (List.Sorted pairLe
          (get_fastest_ips true none ("example.test") ["1.2.3.4", "1.2.3.5"]
            false
            (fun i => if i = "1.2.3.4" then Latency.ms 12 else Latency.ms 45)
            0).1 ∧
        (get_fastest_ips true none ("example.test") ["1.2.3.4", "1.2.3.5"]
            false
            (fun i => if i = "1.2.3.4" then Latency.ms 12 else Latency.ms 45)
            0).1.length ≤ TOP_IP_COUNT ∧
        ∀ p ∈ (get_fastest_ips true none ("example.test")
            ["1.2.3.4", "1.2.3.5"] false
            (fun i => if i = "1.2.3.4" then Latency.ms 12 else Latency.ms 45)
            0).1, p.2 ≠ Latency.inf) :=
  ⟨by decide,
    C1_ranked_result_sorted_bounded_reachable true none ("example.test")
      ["1.2.3.4", "1.2.3.5"] false
      (fun i => if i = "1.2.3.4" then Latency.ms 12 else Latency.ms 45) 0
      (by decide)⟩

/-- C2: for every address and trial count, `test_tcp_latency` is the median
of the successful trial samples — the middle sorted value for an odd number
of successes, the average of the two middle sorted values for an even
number, and the unreachable sentinel when no trial succeeds; in particular
samples 10, 20, 30 yield 20 and samples 10, 20 yield 15. -/
theorem C2_latency_median (samples : List Latency) :
    (successes samples = [] → test_tcp_latency samples = Latency.inf) ∧
    (successes samples ≠ [] →
      ((List.insertionSort (· ≤ ·) (successes samples)).length % 2 = 1 →
        test_tcp_latency samples =
          Latency.ms
            ((List.insertionSort (· ≤ ·) (successes samples)).getD
              ((List.insertionSort (· ≤ ·) (successes samples)).length / 2)
              0)) ∧
      ((List.insertionSort (· ≤ ·) (successes samples)).length % 2 = 0 →
        test_tcp_latency samples =
          Latency.ms
            (((List.insertionSort (· ≤ ·) (successes samples)).getD
                ((List.insertionSort (· ≤ ·) (successes samples)).length / 2
                  - 1) 0 +
              (List.insertionSort (· ≤ ·) (successes samples)).getD
                ((List.insertionSort (· ≤ ·) (successes samples)).length / 2)
                0) / 2))) ∧
    test_tcp_latency [Latency.ms 10, Latency.ms 20, Latency.ms 30] =
      Latency.ms 20 ∧
    test_tcp_latency [Latency.ms 10, Latency.ms 20] = Latency.ms 15 := by
  refine ⟨?_, ?_, by decide, ?_⟩
  · intro h
    rw [test_tcp_latency]
    simp [h]
  · intro hne
    constructor
    · intro hodd
      rw [test_tcp_latency]
      simp only [if_neg hne]
      rw [if_neg (by omega)]
    · intro heven
      rw [test_tcp_latency]
      simp only [if_neg hne]
      rw [if_pos heven]
  · norm_num [test_tcp_latency, successes, List.insertionSort,
      List.orderedInsert]
    decide

/-- Witness for C2: two successful samples 20 and 10 exercise the even
branch of the median. -/
theorem C2_witness :
    (successes [Latency.ms 20, Latency.ms 10] ≠ [] ∧
      (List.insertionSort (· ≤ ·)
        (successes [Latency.ms 20, Latency.ms 10])).length % 2 = 0) ∧
    test_tcp_latency [Latency.ms 20, Latency.ms 10] =
      Latency.ms
        (((List.insertionSort (· ≤ ·)
            (successes [Latency.ms 20, Latency.ms 10])).getD
            ((List.insertionSort (· ≤ ·)
              (successes [Latency.ms 20, Latency.ms 10])).length / 2 - 1) 0 +
          (List.insertionSort (· ≤ ·)
            (successes [Latency.ms 20, Latency.ms 10])).getD
            ((List.insertionSort (· ≤ ·)
              (successes [Latency.ms 20, Latency.ms 10])).length / 2) 0) / 2) :=
  ⟨⟨by decide, by decide⟩,
    ((C2_latency_median [Latency.ms 20, Latency.ms 10]).2.1 (by decide)).2
      (by decide)⟩

/-- With the cache enabled, one update rewrites exactly the entry of the
written key, from its previous value (or the freshly initialized default). -/
theorem load_update_true (store : Store) (domain ip : String) (L now : ℚ) :
    load_cache true (update_cache true store domain ip L now) =
      setEntry (cacheKey domain ip)
        ⟨((lookupEntry (cacheKey domain ip) (load_cache true store)).getD
            ⟨0, 0, none⟩).count + 1,
          (((lookupEntry (cacheKey domain ip) (load_cache true store)).getD
              ⟨0, 0, none⟩).avg_latency *
            ((lookupEntry (cacheKey domain ip) (load_cache true store)).getD
              ⟨0, 0, none⟩).count + L) /
          (((lookupEntry (cacheKey domain ip) (load_cache true store)).getD
              ⟨0, 0, none⟩).count + 1),
          some now⟩
        (load_cache true store) := rfl

/-- With the cache disabled, an update leaves the persisted store untouched. -/
theorem update_cache_disabled (store : Store) (domain ip : String)
    (L now : ℚ) : update_cache false store domain ip L now = store := rfl

/-- After one enabled update, the written key holds the incremented count and
the recomputed running mean. -/
theorem update_cache_lookup (store : Store) (domain ip : String) (L now : ℚ) :
    lookupEntry (cacheKey domain ip)
        (load_cache true (update_cache true store domain ip L now)) =
      some
        ⟨((lookupEntry (cacheKey domain ip) (load_cache true store)).getD
            ⟨0, 0, none⟩).count + 1,
          (((lookupEntry (cacheKey domain ip) (load_cache true store)).getD
              ⟨0, 0, none⟩).avg_latency *
            ((lookupEntry (cacheKey domain ip) (load_cache true store)).getD
              ⟨0, 0, none⟩).count + L) /
          (((lookupEntry (cacheKey domain ip) (load_cache true store)).getD
              ⟨0, 0, none⟩).count + 1),
          some now⟩ := by
  rw [load_update_true, lookupEntry_setEntry_self]

/-- An entry whose average is already `L` keeps average `L` when updated
with `L` again, its count rising by one. -/
theorem update_cache_keeps_avg (store : Store) (domain ip : String)
    (L now : ℚ) (n : Nat) (t : Option ℚ)
    (h : lookupEntry (cacheKey domain ip) (load_cache true store) =
      some ⟨n, L, t⟩) :
    lookupEntry (cacheKey domain ip)
        (load_cache true (update_cache true store domain ip L now)) =
      some ⟨n + 1, L, some now⟩ := by
  rw [update_cache_lookup, h]
  simp only [Option.getD_some]
  have hn : (n : ℚ) + 1 ≠ 0 := by positivity
  congr 1
  field_simp
  ring

/-- C3: `update_cache` initializes an absent entry to count 0 and average 0,
then stores the average `(avg * count + L) / (count + 1)` and the
incremented count; consequently, `k` consecutive updates of an initially
absent pair with the constant value `L` leave the stored average at `L` and
the stored count at `k`. -/
theorem C3_cache_update_running_mean (store : Store) (domain ip : String)
    (L now : ℚ) :
    (lookupEntry (cacheKey domain ip)
        (load_cache true (update_cache true store domain ip L now)) =
      some
        ⟨((lookupEntry (cacheKey domain ip) (load_cache true store)).getD
            ⟨0, 0, none⟩).count + 1,
          (((lookupEntry (cacheKey domain ip) (load_cache true store)).getD
              ⟨0, 0, none⟩).avg_latency *
            ((lookupEntry (cacheKey domain ip) (load_cache true store)).getD
              ⟨0, 0, none⟩).count + L) /
          (((lookupEntry (cacheKey domain ip) (load_cache true store)).getD
              ⟨0, 0, none⟩).count + 1),
          some now⟩) ∧
    ∀ k : Nat, 1 ≤ k →
      lookupEntry (cacheKey domain ip) (load_cache true store) = none →
      lookupEntry (cacheKey domain ip)
          (load_cache true (iterateUpdate true domain ip L now k store)) =
        some ⟨k, L, some now⟩ := by
  refine ⟨update_cache_lookup store domain ip L now, ?_⟩
  intro k hk habs
  induction k with
  | zero => exact absurd hk (by omega)
  | succ k ih =>
    rcases Nat.eq_zero_or_pos k with h0 | hpos
    · subst h0
      rw [show iterateUpdate true domain ip L now 1 store =
        update_cache true store domain ip L now from rfl]
      rw [update_cache_lookup, habs]
      simp only [Option.getD_none]
      norm_num
    · rw [show iterateUpdate true domain ip L now (k + 1) store =
        update_cache true (iterateUpdate true domain ip L now k store)
          domain ip L now from rfl]
      exact update_cache_keeps_avg _ domain ip L now k (some now) (ih hpos)

/-- Witness for C3: two consecutive updates of an absent pair with the
constant latency 10 yield count 2 and average 10. -/
theorem C3_witness :
    (1 ≤ 2 ∧
      lookupEntry (cacheKey ("github.com") ("1.2.3.4"))
        (load_cache true none) = none) ∧
      lookupEntry (cacheKey ("github.com") ("1.2.3.4"))
          (load_cache true
            (iterateUpdate true ("github.com") ("1.2.3.4") 10 7 2 none)) =
        some ⟨2, 10, some 7⟩ :=
  ⟨⟨by decide, by decide⟩,
    (C3_cache_update_running_mean none ("github.com") ("1.2.3.4") 10 7).2 2
      (by decide) (by decide)⟩

/-- C10: an update leaves the entry of every other key unchanged, and never
removes an entry — the key set of the cache only grows. -/
theorem C10_update_frame (enabled : Bool) (store : Store) (domain ip : String)
    (L now : ℚ) :
    (∀ k', k' ≠ cacheKey domain ip →
      lookupEntry k'
          (load_cache enabled (update_cache enabled store domain ip L now)) =
        lookupEntry k' (load_cache enabled store)) ∧
    (∀ k' e, lookupEntry k' (load_cache enabled store) = some e →
      ∃ e', lookupEntry k'
          (load_cache enabled (update_cache enabled store domain ip L now)) =
        some e') := by
  cases enabled with
  | false =>
    constructor
    · intro k' _
      rw [update_cache_disabled]
    · intro k' e h
      rw [update_cache_disabled]
      exact ⟨e, h⟩
  | true =>
    constructor
    · intro k' hne
      rw [load_update_true, lookupEntry_setEntry_ne _ _ _ _ hne]
    · intro k' e h
      by_cases hk : k' = cacheKey domain ip
      · subst hk
        exact ⟨_, update_cache_lookup store domain ip L now⟩
      · rw [load_update_true, lookupEntry_setEntry_ne _ _ _ _ hk]
        exact ⟨e, h⟩

/-- Witness for C10: updating `github.com:1.2.3.4` leaves the unrelated key
`other.test:1.1.1.1` bound to its previous entry. -/
theorem C10_witness :
    (("other.test:1.1.1.1" : String) ≠ cacheKey ("github.com") ("1.2.3.4") ∧
      lookupEntry ("other.test:1.1.1.1")
          (load_cache true (some [(("other.test:1.1.1.1"),
            (⟨1, 5, none⟩ : CacheEntry))])) =
        some ⟨1, 5, none⟩) ∧
      lookupEntry ("other.test:1.1.1.1")
          (load_cache true
            (update_cache true
              (some [(("other.test:1.1.1.1"), (⟨1, 5, none⟩ : CacheEntry))])
              ("github.com") ("1.2.3.4") 10 7)) =
        lookupEntry ("other.test:1.1.1.1")
          (load_cache true (some [(("other.test:1.1.1.1"),
            (⟨1, 5, none⟩ : CacheEntry))])) ∧
      ∃ e', lookupEntry ("other.test:1.1.1.1")
          (load_cache true
            (update_cache true
              (some [(("other.test:1.1.1.1"), (⟨1, 5, none⟩ : CacheEntry))])
              ("github.com") ("1.2.3.4") 10 7)) = some e' :=
  ⟨⟨by decide, by decide⟩,
    (C10_update_frame true
      (some [(("other.test:1.1.1.1"), (⟨1, 5, none⟩ : CacheEntry))])
      ("github.com") ("1.2.3.4") 10 7).1 ("other.test:1.1.1.1") (by decide),
    (C10_update_frame true
      (some [(("other.test:1.1.1.1"), (⟨1, 5, none⟩ : CacheEntry))])
      ("github.com") ("1.2.3.4") 10 7).2 ("other.test:1.1.1.1") ⟨1, 5, none⟩
      (by decide)⟩

/-- C4: for a hostname with a non-empty candidate pool whose every probe
returns the unreachable estimate, the ranking returns exactly one pair: the
first candidate address of the resolution/cache union, paired with the
unreachable marker. -/
theorem C4_all_probes_failed_single_fallback (enabled : Bool) (store : Store)
    (domain : String) (resolved : List String) (useCache : Bool)
    (probe : String → Latency) (now : ℚ) (i : String) (t : List String)
    (hips : candidatesOf enabled store domain resolved useCache = i :: t)
    (hall : ∀ ip ∈ candidatesOf enabled store domain resolved useCache,
      probe ip = Latency.inf) :
    (get_fastest_ips enabled store domain resolved useCache probe now).1 =
      [(i, Latency.inf)] := by
  apply get_fastest_ips_fst_of_valid_nil enabled store domain resolved
    useCache probe now i t hips
  rw [List.filter_eq_nil_iff]
  intro p hp
  have hp' := (List.perm_insertionSort pairLe _).mem_iff.mp hp
  obtain ⟨ip, hipmem, rfl⟩ := List.mem_map.mp hp'
  simp [hall ip hipmem]

/-- Witness for C4 at the spec's concrete scenario: the single candidate
`9.9.9.9` times out on every probe. -/
theorem C4_witness :
    (candidatesOf true none ("example.test") ["9.9.9.9"] false =
        "9.9.9.9" :: [] ∧
      ∀ ip ∈ candidatesOf true none ("example.test") ["9.9.9.9"] false,
        (fun _ => Latency.inf) ip = Latency.inf) ∧
      (get_fastest_ips true none ("example.test") ["9.9.9.9"] false
          (fun _ => Latency.inf) 0).1 = [("9.9.9.9", Latency.inf)] :=
  ⟨⟨by decide, by decide⟩,
    C4_all_probes_failed_single_fallback true none ("example.test")
      ["9.9.9.9"] false (fun _ => Latency.inf) 0 ("9.9.9.9") [] (by decide)
      (by decide)⟩

/-- Every entry line produced for a catalogue domain is tagged with that
domain. -/
theorem mem_hostsLinesFor_domain (results : List (String × RankedResult))
    (multiIp : Bool) (d : String) (e : HostsLine)
    (he : e ∈ hostsLinesFor results multiIp d) : e.domain = d := by
  rw [hostsLinesFor] at he
  cases hlk : lookupResult d results with
  | none => rw [hlk] at he; exact absurd he (List.not_mem_nil e)
  | some ipList =>
    rw [hlk] at he
    cases multiIp with
    | true =>
      simp only [if_pos rfl] at he
      obtain ⟨p, _, rfl⟩ := List.mem_map.mp he
      rfl
    | false =>
      simp only [Bool.false_eq_true, if_false] at he
      cases ipList with
      | nil => exact absurd he (List.not_mem_nil e)
      | cons p rest =>
        rw [List.mem_singleton] at he
        rw [he]

/-- A successful dict lookup comes from a binding in the list. -/
theorem lookupResult_mem (d : String) (rs : List (String × RankedResult))
    (l : RankedResult) (h : lookupResult d rs = some l) : (d, l) ∈ rs := by
  induction rs with
  | nil => exact absurd h (by simp [lookupResult])
  | cons p rest ih =>
    rw [lookupResult] at h
    by_cases hd : p.1 = d
    · rw [if_pos hd] at h
      have h2 : p = (d, l) := Prod.ext hd (Option.some.inj h)
      rw [← h2]
      exact List.mem_cons_self p rest
    · rw [if_neg hd] at h
      exact List.mem_cons_of_mem p (ih h)

/-- C6: for a hostname for which live resolution and the cache both yield
zero candidates, the ranking returns the empty result for every probe
function (so no probe outcome is ever consulted) and leaves the store
untouched; and a hostname all of whose collected run results are empty
produces no entry line in the rendered artifact. -/
theorem C6_no_candidates_no_output (enabled : Bool) (store : Store)
    (domain : String) (resolved : List String) (useCache : Bool) (now : ℚ)
    (hres : resolved = [])
    (hcache : get_cached_ips domain (load_cache enabled store) = []) :
    (∀ probe : String → Latency,
      get_fastest_ips enabled store domain resolved useCache probe now =
        ([], store)) ∧
    ∀ (runs : List (String × RankedResult)) (domains : List String)
      (multiIp : Bool),
      (∀ p ∈ runs, p.1 = domain → p.2 = []) →
      ∀ e ∈ hostsEntriesOn domains (buildResults runs) multiIp,
        e.domain ≠ domain := by
  have hnil : candidatesOf enabled store domain resolved useCache = [] := by
    subst hres
    cases useCache <;>
      simp [candidatesOf, gatherCandidates, hcache, dedupKeepFirst]
  constructor
  · intro probe
    exact get_fastest_ips_of_no_candidates enabled store domain resolved
      useCache probe now hnil
  · intro runs domains multiIp hruns e he
    obtain ⟨d, _, hline⟩ := List.mem_flatMap.mp he
    have hdom := mem_hostsLinesFor_domain (buildResults runs) multiIp d e hline
    intro hcontra
    rw [hcontra] at hdom
    rw [← hdom] at hline
    cases hlk : lookupResult domain (buildResults runs) with
    | none => simp [hostsLinesFor, hlk] at hline
    | some l =>
      have hmem := lookupResult_mem domain (buildResults runs) l hlk
      have hmem' := List.mem_filter.mp hmem
      have hne : l ≠ [] := by simpa using hmem'.2
      exact hne (hruns (domain, l) hmem'.1 rfl)

/-- Witness for C6: empty resolution and empty cache for `dead.test`, and a
collected run list whose only `dead.test` entry is empty. -/
theorem C6_witness :
    (([] : List String) = [] ∧
      get_cached_ips ("dead.test") (load_cache true none) = []) ∧
      ((∀ probe : String → Latency,
        get_fastest_ips true none ("dead.test") [] true probe 0 =
          ([], none)) ∧
      ∀ (runs : List (String × RankedResult)) (domains : List String)
        (multiIp : Bool),
        (∀ p ∈ runs, p.1 = "dead.test" → p.2 = []) →
        ∀ e ∈ hostsEntriesOn domains (buildResults runs) multiIp,
          e.domain ≠ "dead.test") :=
  ⟨⟨rfl, by decide⟩,
    C6_no_candidates_no_output true none ("dead.test") [] true 0 rfl
      (by decide)⟩

/-- C7: `get_all_ips` tries the channels in the fixed order DoH, then
plaintext DNS, then web scrape, returning the first channel result with at
least one address; a raising or empty channel falls through (the function is
total: no exception reaches the caller), and when every channel yields
nothing the result is empty. -/
theorem C7_resolution_ordered_fallback (dohR tradR webR : ChannelResult)
    (use_doh use_web : Bool) :
    (use_doh = true → channelIps dohR ≠ [] →
      get_all_ips dohR tradR webR use_doh use_web = channelIps dohR) ∧
    ((use_doh = false ∨ channelIps dohR = []) → channelIps tradR ≠ [] →
      get_all_ips dohR tradR webR use_doh use_web = channelIps tradR) ∧
    ((use_doh = false ∨ channelIps dohR = []) → channelIps tradR = [] →
      use_web = true → channelIps webR ≠ [] →
      get_all_ips dohR tradR webR use_doh use_web = channelIps webR) ∧
    ((use_doh = false ∨ channelIps dohR = []) → channelIps tradR = [] →
      (use_web = false ∨ channelIps webR = []) →
      get_all_ips dohR tradR webR use_doh use_web = []) := by
  refine ⟨?_, ?_, ?_, ?_⟩
  · intro h1 h2
    subst h1
    simp [get_all_ips, h2]
  · intro h1 h2
    rcases h1 with h1 | h1
    · subst h1
      simp [get_all_ips, h2]
    · simp [get_all_ips, h1, h2]
  · intro h1 h2 h3 h4
    subst h3
    rcases h1 with h1 | h1
    · subst h1
      simp [get_all_ips, h2, h4]
    · simp [get_all_ips, h1, h2, h4]
  · intro h1 h2 h3
    rcases h1 with h1 | h1 <;> rcases h3 with h3 | h3 <;>
      first
        | (subst h1; subst h3; simp [get_all_ips, h2])
        | (subst h1; simp [get_all_ips, h2, h3])
        | (subst h3; simp [get_all_ips, h1, h2])
        | simp [get_all_ips, h1, h2, h3]

/-- Witness for C7: every channel raises; the exceptions are swallowed and
the resolution returns the empty list. -/
theorem C7_witness :
    ((true = false ∨ channelIps (Except.error ()) = []) ∧
      channelIps (Except.error ()) = [] ∧
      (true = false ∨ channelIps (Except.error ()) = [])) ∧
      get_all_ips (Except.error ()) (Except.error ()) (Except.error ())
        true true = [] :=
  ⟨⟨Or.inr rfl, rfl, Or.inr rfl⟩,
    (C7_resolution_ordered_fallback (Except.error ()) (Except.error ())
      (Except.error ()) true true).2.2.2 (Or.inr rfl) rfl (Or.inr rfl)⟩

/-- With the cache disabled the probing loop never touches the store. -/
theorem probeAll_snd_disabled (domain : String) (probe : String → Latency)
    (now : ℚ) (l : List String) (store : Store) :
    (probeAll false domain probe now l store).2 = store := by
  induction l generalizing store with
  | nil => rfl
  | cons ip rest ih =>
    cases hp : probe ip <;>
      simp [probeAll, update_cache_disabled, ih, hp]

/-- C8: with the cache disabled by the configuration flag, every cache
operation is a no-op — load returns the empty mapping, update writes
nothing, the cached candidates are empty — and a whole ranking run leaves
the persisted store unchanged. -/
theorem C8_cache_disabled_noops (store : Store) (domain ip : String)
    (L now : ℚ) (resolved : List String) (useCache : Bool)
    (probe : String → Latency) :
    load_cache false store = [] ∧
    update_cache false store domain ip L now = store ∧
    get_cached_ips domain (load_cache false store) = [] ∧
    (get_fastest_ips false store domain resolved useCache probe now).2 =
      store := by
  refine ⟨rfl, rfl, rfl, ?_⟩
  by_cases h : candidatesOf false store domain resolved useCache = []
  · simp [get_fastest_ips, h]
  · rw [get_fastest_ips]
    simp only [if_neg h]
    split
    · split <;> exact probeAll_snd_disabled domain probe now _ store
    · exact probeAll_snd_disabled domain probe now _ store

/-- Inserting a pair whose latency equals `v` places it in front of every
pair already holding latency `v` (they arrived later in the fold). -/
theorem filter_orderedInsert_key (a : String × Latency)
    (l : List (String × Latency)) (v : Latency) (ha : a.2 = v) :
    (List.orderedInsert pairLe a l).filter (fun p => p.2 = v) =
      a :: l.filter (fun p => p.2 = v) := by
  induction l with
  | nil => simp [List.orderedInsert, ha]
  | cons b t ih =>
    by_cases hr : pairLe a b
    · simp [List.orderedInsert, hr, ha]
    · have hb : b.2 ≠ v := by
        intro hbv
        apply hr
        show Latency.le a.2 b.2
        rw [ha, hbv]
        exact Latency.leRefl v
      simp [List.orderedInsert, hr, hb, ih]

/-- Inserting a pair of a different latency leaves the filter at `v`
unchanged. -/
theorem filter_orderedInsert_ne (a : String × Latency)
    (l : List (String × Latency)) (v : Latency) (ha : a.2 ≠ v) :
    (List.orderedInsert pairLe a l).filter (fun p => p.2 = v) =
      l.filter (fun p => p.2 = v) := by
  induction l with
  | nil => simp [List.orderedInsert, ha]
  | cons b t ih =>
    by_cases hr : pairLe a b
    · simp [List.orderedInsert, hr, ha]
    · by_cases hb : b.2 = v
      · simp [List.orderedInsert, hr, hb, ih]
      · simp [List.orderedInsert, hr, hb, ih]

/-- Stability of the latency sort: pairs holding any fixed latency value
keep their relative input order. -/
theorem insertionSort_filter_latency (l : List (String × Latency))
    (v : Latency) :
    (List.insertionSort pairLe l).filter (fun p => p.2 = v) =
      l.filter (fun p => p.2 = v) := by
  induction l with
  | nil => rfl
  | cons a t ih =>
    rw [List.insertionSort]
    by_cases ha : a.2 = v
    · rw [filter_orderedInsert_key a _ v ha, ih,
        List.filter_cons_of_pos (by simpa using ha)]
    · rw [filter_orderedInsert_ne a _ v ha, ih,
        List.filter_cons_of_neg (by simpa using ha)]

/-- C5 (amended): the ranking sort orders pairs ascending by latency
estimate only; pairs with equal estimates keep their relative order from
the probe-results enumeration (the sort is stable), so identical timings
yield identical ranked results only when the enumeration order also
coincides — ties are not ordered by address value. -/
theorem C5_sort_stable_not_by_address (l : List (String × Latency)) :
    List.Sorted pairLe (List.insertionSort pairLe l) ∧
    ∀ v : Latency, (List.insertionSort pairLe l).filter (fun p => p.2 = v) =
      l.filter (fun p => p.2 = v) :=
  ⟨List.sorted_insertionSort pairLe l, insertionSort_filter_latency l⟩

/-- C5 counterexample: two candidates measured at the identical latency keep
their enumeration order `10.0.0.2`, `10.0.0.1` in the ranked result — the
tie is not ordered by address value (`10.0.0.1` is the smaller address) —
and the same candidate set enumerated the other way round yields a different
ranked result under identical timings. -/
theorem C5_counterexample :
    (get_fastest_ips true none ("tie.test") ["10.0.0.2", "10.0.0.1"] false
        (fun _ => Latency.ms 10) 0).1 =
      [("10.0.0.2", Latency.ms 10), ("10.0.0.1", Latency.ms 10)] ∧
    (get_fastest_ips true none ("tie.test") ["10.0.0.1", "10.0.0.2"] false
        (fun _ => Latency.ms 10) 0).1 =
      [("10.0.0.1", Latency.ms 10), ("10.0.0.2", Latency.ms 10)] ∧
    ("10.0.0.1").data < ("10.0.0.2").data ∧
    [("10.0.0.2", Latency.ms 10), ("10.0.0.1", Latency.ms 10)] ≠
      [("10.0.0.1", Latency.ms 10), ("10.0.0.2", Latency.ms 10)] :=
  ⟨by decide, by decide, by decide, by decide⟩

/-- Mapping the domain field over one domain group yields a constant block. -/
theorem map_domain_hostsLinesFor (results : List (String × RankedResult))
    (multiIp : Bool) (d : String) :
    (hostsLinesFor results multiIp d).map HostsLine.domain =
      List.replicate (hostsLinesFor results multiIp d).length d := by
  have hall : ∀ x ∈ (hostsLinesFor results multiIp d).map HostsLine.domain,
      x = d := by
    intro x hx
    obtain ⟨e, he, rfl⟩ := List.mem_map.mp hx
    exact mem_hostsLinesFor_domain results multiIp d e he
  rw [List.eq_replicate_of_mem hall, List.length_map]

/-- With a duplicate-free catalogue, all lines tagged with a hostname are
exactly that hostname's single group. -/
theorem filter_hostsEntriesOn_eq (results : List (String × RankedResult))
    (multiIp : Bool) (domains : List String) (d : String)
    (hnd : domains.Nodup) :
    (hostsEntriesOn domains results multiIp).filter (fun e => e.domain = d) =
      if d ∈ domains then hostsLinesFor results multiIp d else [] := by
  induction domains with
  | nil => simp [hostsEntriesOn]
  | cons d0 rest ih =>
    have hnd' := List.nodup_cons.mp hnd
    rw [hostsEntriesOn, List.flatMap_cons, List.filter_append,
      show rest.flatMap (hostsLinesFor results multiIp) =
        hostsEntriesOn rest results multiIp from rfl, ih hnd'.2]
    by_cases hd : d = d0
    · subst hd
      have hgrp : (hostsLinesFor results multiIp d).filter
          (fun e => e.domain = d) = hostsLinesFor results multiIp d := by
        apply List.filter_eq_self.mpr
        intro e he
        simpa using mem_hostsLinesFor_domain results multiIp d e he
      rw [hgrp, if_neg hnd'.1, if_pos (List.mem_cons_self d rest),
        List.append_nil]
    · have hgrp : (hostsLinesFor results multiIp d0).filter
          (fun e => e.domain = d) = [] := by
        apply List.filter_eq_nil_iff.mpr
        intro e he
        have hed := mem_hostsLinesFor_domain results multiIp d0 e he
        simp only [hed]
        exact fun hq => hd ((of_decide_eq_true hq).symm)
      rw [hgrp, List.nil_append]
      by_cases hdr : d ∈ rest
      · rw [if_pos hdr, if_pos (List.mem_cons_of_mem d0 hdr)]
      · rw [if_neg hdr, if_neg (by simp [List.mem_cons, hd, hdr])]

/-- C9: for every collected results mapping whose ranked lists are
latency-sorted and every duplicate-free catalogue, the artifact's entry
lines form one contiguous per-hostname block per catalogue position, in
catalogue order; the lines tagged with a hostname are exactly its group;
each group is sorted ascending by latency; and in single-IP mode a resolved
hostname emits exactly one line, carrying its fastest address. -/
theorem C9_artifact_grouped_in_catalogue_order
    (runs : List (String × RankedResult)) (domains : List String)
    (multiIp : Bool) (hnd : domains.Nodup)
    (hsorted : ∀ p ∈ runs, List.Sorted pairLe p.2) :
    ((hostsEntriesOn domains (buildResults runs) multiIp).map
        HostsLine.domain =
      domains.flatMap fun d =>
        List.replicate (hostsLinesFor (buildResults runs) multiIp d).length
          d) ∧
    (∀ d, (hostsEntriesOn domains (buildResults runs) multiIp).filter
        (fun e => e.domain = d) =
      if d ∈ domains then hostsLinesFor (buildResults runs) multiIp d
      else []) ∧
    (∀ d, List.Sorted (fun a b : HostsLine => Latency.le a.latency b.latency)
      (hostsLinesFor (buildResults runs) multiIp d)) ∧
    (multiIp = false → ∀ d l, lookupResult d (buildResults runs) = some l →
      ∃ p rest, l = p :: rest ∧
        hostsLinesFor (buildResults runs) false d = [⟨p.1, d, p.2⟩] ∧
        ∀ q ∈ l, Latency.le p.2 q.2) := by
  refine ⟨?_, ?_, ?_, ?_⟩
  · rw [hostsEntriesOn, List.map_flatMap]
    simp only [map_domain_hostsLinesFor]
  · intro d
    exact filter_hostsEntriesOn_eq (buildResults runs) multiIp domains d hnd
  · intro d
    rw [hostsLinesFor]
    cases hlk : lookupResult d (buildResults runs) with
    | none => exact List.sorted_nil
    | some l =>
      have hl : List.Sorted pairLe l := by
        have hm := List.mem_filter.mp
          (lookupResult_mem d (buildResults runs) l hlk)
        exact hsorted (d, l) hm.1
      cases multiIp with
      | true => exact List.pairwise_map.mpr hl
      | false =>
        cases l with
        | nil => exact List.sorted_nil
        | cons p rest => exact List.sorted_singleton _
  · intro hm d l hlk
    have hmem := List.mem_filter.mp
      (lookupResult_mem d (buildResults runs) l hlk)
    have hlne : l ≠ [] := by simpa using hmem.2
    have hl : List.Sorted pairLe l := hsorted (d, l) hmem.1
    cases l with
    | nil => exact absurd rfl hlne
    | cons p rest =>
      refine ⟨p, rest, rfl, ?_, ?_⟩
      · rw [hostsLinesFor, hlk]
        rfl
      · intro q hq
        rcases List.mem_cons.mp hq with hq | hq
        · rw [hq]
          exact Latency.leRefl _
        · exact (List.pairwise_cons.mp hl).1 q hq

/-- Every ranked result `get_fastest_ips` can return is latency-sorted —
including the empty and the degenerate single-pair fallback — so the
sortedness hypothesis of the artifact theorem holds of every collected
results mapping. -/
theorem sorted_get_fastest_ips (enabled : Bool) (store : Store)
    (domain : String) (resolved : List String) (useCache : Bool)
    (probe : String → Latency) (now : ℚ) :
    List.Sorted pairLe
      (get_fastest_ips enabled store domain resolved useCache probe now).1 := by
  by_cases h : candidatesOf enabled store domain resolved useCache = []
  · rw [get_fastest_ips_of_no_candidates enabled store domain resolved
      useCache probe now h]
    exact List.sorted_nil
  · by_cases hv : (List.insertionSort pairLe
        ((candidatesOf enabled store domain resolved useCache).map
          fun ip => (ip, probe ip))).filter
            (fun p => p.2 ≠ Latency.inf) = []
    · obtain ⟨i, t, hit⟩ : ∃ i t,
          candidatesOf enabled store domain resolved useCache = i :: t := by
        cases hc : candidatesOf enabled store domain resolved useCache with
        | nil => exact absurd hc h
        | cons i t => exact ⟨i, t, rfl⟩
      rw [get_fastest_ips_fst_of_valid_nil enabled store domain resolved
        useCache probe now i t hit hv]
      exact List.sorted_singleton _
    · rw [get_fastest_ips_fst_of_valid_ne enabled store domain resolved
        useCache probe now hv]
      exact List.Pairwise.sublist (List.take_sublist _ _) (sorted_valid _ _)

/-- Witness for C9 on a one-hostname catalogue in single-IP mode. -/
theorem C9_witness :
    ((["a.test"] : List String).Nodup ∧
      ∀ p ∈ [(("a.test"), [(("1.1.1.1"), Latency.ms 5)])],
        List.Sorted pairLe p.2) ∧
    (((hostsEntriesOn ["a.test"]
        (buildResults [(("a.test"), [(("1.1.1.1"), Latency.ms 5)])])
        false).map HostsLine.domain =
      (["a.test"] : List String).flatMap fun d =>
        List.replicate
          (hostsLinesFor
            (buildResults [(("a.test"), [(("1.1.1.1"), Latency.ms 5)])])
            false d).length d) ∧
    (∀ d, (hostsEntriesOn ["a.test"]
        (buildResults [(("a.test"), [(("1.1.1.1"), Latency.ms 5)])])
        false).filter (fun e => e.domain = d) =
      if d ∈ (["a.test"] : List String) then
        hostsLinesFor
          (buildResults [(("a.test"), [(("1.1.1.1"), Latency.ms 5)])])
          false d
      else []) ∧
    (∀ d, List.Sorted (fun a b : HostsLine => Latency.le a.latency b.latency)
      (hostsLinesFor
        (buildResults [(("a.test"), [(("1.1.1.1"), Latency.ms 5)])])
        false d)) ∧
    (false = false → ∀ d l,
      lookupResult d
        (buildResults [(("a.test"), [(("1.1.1.1"), Latency.ms 5)])]) =
          some l →
      ∃ p rest, l = p :: rest ∧
        hostsLinesFor
          (buildResults [(("a.test"), [(("1.1.1.1"), Latency.ms 5)])])
          false d = [⟨p.1, d, p.2⟩] ∧
        ∀ q ∈ l, Latency.le p.2 q.2)) :=
  ⟨⟨by decide, by decide⟩,
    C9_artifact_grouped_in_catalogue_order
      [(("a.test"), [(("1.1.1.1"), Latency.ms 5)])] ["a.test"] false
      (by decide) (by decide)⟩

end GithubHosts

